import Mathlib

/-!
Verification of the XCM codec in precompiles/utils/src/data/xcm.rs.

The module encodes and decodes the types NetworkId, Junction, Junctions and
MultiLocation to and from byte strings for the EVM precompile ABI.  Bytes are
modelled as natural numbers (values below 256); byte strings as lists.  The
generic ABI reader and writer primitives, the bound constants of the domain
types, and the bounded-sequence behaviour of Junctions live outside the
provided source file and are modelled from the specification where noted.
-/

deriving instance DecidableEq for Except

namespace Xcm

/-- Decode failures.  The source reports every failure through the revert
channel carrying a message string; each constructor here records the failure
kind of the specification together with the exact message the source passes
to revert.  The underlyingReader constructor stands for an error propagated
verbatim from the generic ABI reader (insufficient bytes for a fixed read). -/
inductive EvmError where
  | emptyInput (msg : String)
  | unknownVariantTag (msg : String)
  | lengthOverflow (msg : String)
  | underlyingReader
deriving DecidableEq

/-- Outcome of an encoder run.  The source encoder has no error channel: on
the one unsupported variant it executes an unconditional unreachable macro,
which aborts the process.  That abort is modelled as this distinguished
outcome so that it can be told apart from producing output bytes. -/
inductive EncodeAbort where
  | unreachableAbort (msg : String)
deriving DecidableEq

/-- Modelled from the spec: the domain-defined bound B_name on the length of
a Named network name (the WeakBoundedVec bound of the domain NetworkId type,
which is not part of the provided source). -/
def B_NAME : Nat := 32

/-- Modelled from the spec: the domain-defined bound B_key on the length of a
GeneralKey payload (the WeakBoundedVec bound of the domain Junction type). -/
def B_KEY : Nat := 32

/-- Modelled from the spec: the domain-defined maximum depth D of a Junctions
path; appending beyond this capacity is an error. -/
def MAX_DEPTH : Nat := 8

/-- The 4-variant network identifier.  The Named payload is the inner byte
vector of the domain WeakBoundedVec. -/
inductive NetworkId where
  | any
  | named (name : List Nat)
  | polkadot
  | kusama
deriving DecidableEq

/-- The junction step type.  The eight supported variants carry the payloads
the codec reads and writes; plurality exists in the domain type but is
unrepresentable by the codec, so its payload is irrelevant here and omitted. -/
inductive Junction where
  | parachain (paraId : Nat)
  | accountId32 (network : NetworkId) (id : List Nat)
  | accountIndex64 (network : NetworkId) (index : Nat)
  | accountKey20 (network : NetworkId) (key : List Nat)
  | palletInstance (inst : Nat)
  | generalIndex (idx : Nat)
  | generalKey (key : List Nat)
  | onlyChild
  | plurality
deriving DecidableEq

/-- Modelled from the spec: the domain Junctions type, an ordered sequence of
Junction bounded by depth D = 8 (constructors Here and X1 through X8). -/
inductive Junctions where
  | here
  | x1 (a : Junction)
  | x2 (a b : Junction)
  | x3 (a b c : Junction)
  | x4 (a b c d : Junction)
  | x5 (a b c d e : Junction)
  | x6 (a b c d e f : Junction)
  | x7 (a b c d e f g : Junction)
  | x8 (a b c d e f g h : Junction)
deriving DecidableEq

/-- Modelled from the spec: appending one Junction to a Junctions path; none
when the path already holds D = 8 elements. -/
def Junctions.push : Junctions → Junction → Option Junctions
  | .here, j => some (.x1 j)
  | .x1 a, j => some (.x2 a j)
  | .x2 a b, j => some (.x3 a b j)
  | .x3 a b c, j => some (.x4 a b c j)
  | .x4 a b c d, j => some (.x5 a b c d j)
  | .x5 a b c d e, j => some (.x6 a b c d e j)
  | .x6 a b c d e f, j => some (.x7 a b c d e f j)
  | .x7 a b c d e f g, j => some (.x8 a b c d e f g j)
  | .x8 _ _ _ _ _ _ _ _, _ => none

/-- Modelled from the spec: iteration order of a Junctions path, first
element to last, as used by the encoder to flatten the sequence. -/
def Junctions.toList : Junctions → List Junction
  | .here => []
  | .x1 a => [a]
  | .x2 a b => [a, b]
  | .x3 a b c => [a, b, c]
  | .x4 a b c d => [a, b, c, d]
  | .x5 a b c d e => [a, b, c, d, e]
  | .x6 a b c d e f => [a, b, c, d, e, f]
  | .x7 a b c d e f g => [a, b, c, d, e, f, g]
  | .x8 a b c d e f g h => [a, b, c, d, e, f, g, h]

/-- The pair of an ancestry count (a u8) and an interior Junctions path. -/
structure MultiLocation where
  parents : Nat
  interior : Junctions
deriving DecidableEq

/-- Big-endian byte string of a w-byte machine integer, as produced by the
to_be_bytes calls of the source encoder. -/
def toBeBytes : Nat → Nat → List Nat
  | 0, _ => []
  | w + 1, n => toBeBytes w (n / 256) ++ [n % 256]

/-- Big-endian value of a byte string, as computed by the from_be_bytes
calls of the source decoder. -/
def fromBeBytes (l : List Nat) : Nat :=
  l.foldl (fun acc b => acc * 256 + b) 0

/-- Modelled from the spec: the read_raw_bytes primitive of the generic ABI
reader, which yields the next n bytes and leaves the rest, and fails with an
underlying reader error when fewer than n bytes remain. -/
def readRawBytes (n : Nat) (l : List Nat) : Except EvmError (List Nat × List Nat) :=
  if n ≤ l.length then .ok (l.take n, l.drop n) else .error .underlyingReader

/-- network_id_to_bytes: one tag byte, then, only for Named, the raw name
bytes. -/
def network_id_to_bytes : NetworkId → List Nat
  | .any => [0]
  | .named name => 1 :: name
  | .polkadot => [2]
  | .kusama => [3]

/-- network_id_from_bytes: rejects an empty buffer, reads one tag byte, and
for tag 1 consumes every remaining byte as the name, bounded by B_NAME (the
WeakBoundedVec conversion of the source). -/
def network_id_from_bytes (encodedBytes : List Nat) : Except EvmError NetworkId :=
  match encodedBytes with
  | [] => .error (.emptyInput "Junctions cannot be empty")
  | tag :: rest =>
    if tag = 0 then .ok .any
    else if tag = 1 then
      if rest.length ≤ B_NAME then .ok (.named rest)
      else .error (.lengthOverflow "Named Network Id name too long.")
    else if tag = 2 then .ok .polkadot
    else if tag = 3 then .ok .kusama
    else .error (.unknownVariantTag "Non-valid Network Id")

/-- Junction read, on the inner byte string of the dynamic-byte field:
rejects an empty buffer, reads one tag byte, then the fixed fields of the
selected variant, and for the account variants hands every remaining byte to
network_id_from_bytes. -/
def junction_from_bytes (junctionBytes : List Nat) : Except EvmError Junction :=
  match junctionBytes with
  | [] => .error (.emptyInput "Junctions cannot be empty")
  | tag :: rest =>
    if tag = 0 then
      match readRawBytes 4 rest with
      | .error e => .error e
      | .ok (data, _) => .ok (.parachain (fromBeBytes data))
    else if tag = 1 then
      match readRawBytes 32 rest with
      | .error e => .error e
      | .ok (account, remaining) =>
        match network_id_from_bytes remaining with
        | .error e => .error e
        | .ok network => .ok (.accountId32 network account)
    else if tag = 2 then
      match readRawBytes 8 rest with
      | .error e => .error e
      | .ok (index, remaining) =>
        match network_id_from_bytes remaining with
        | .error e => .error e
        | .ok network => .ok (.accountIndex64 network (fromBeBytes index))
    else if tag = 3 then
      match readRawBytes 20 rest with
      | .error e => .error e
      | .ok (account, remaining) =>
        match network_id_from_bytes remaining with
        | .error e => .error e
        | .ok network => .ok (.accountKey20 network account)
    else if tag = 4 then
      match readRawBytes 1 rest with
      | .error e => .error e
      | .ok (data, _) => .ok (.palletInstance (data.headD 0))
    else if tag = 5 then
      match readRawBytes 16 rest with
      | .error e => .error e
      | .ok (data, _) => .ok (.generalIndex (fromBeBytes data))
    else if tag = 6 then
      if rest.length ≤ B_KEY then .ok (.generalKey rest)
      else .error (.lengthOverflow "Junction GeneralKey too long.")
    else if tag = 7 then .ok .onlyChild
    else .error (.unknownVariantTag "No selector for this")

/-- Junction write, producing the inner byte string that the source wraps as
one dynamic-byte field: tag byte, fixed fields in big-endian order, then the
NetworkId bytes where applicable.  The plurality arm models the unconditional
unreachable abort of the source. -/
def junction_write : Junction → Except EncodeAbort (List Nat)
  | .parachain paraId => .ok (0 :: toBeBytes 4 paraId)
  | .accountId32 network id => .ok (1 :: (id ++ network_id_to_bytes network))
  | .accountIndex64 network index => .ok (2 :: (toBeBytes 8 index ++ network_id_to_bytes network))
  | .accountKey20 network key => .ok (3 :: (key ++ network_id_to_bytes network))
  | .palletInstance inst => .ok (4 :: toBeBytes 1 inst)
  | .generalIndex idx => .ok (5 :: toBeBytes 16 idx)
  | .generalKey key => .ok (6 :: key)
  | .onlyChild => .ok [7]
  | .plurality => .error (.unreachableAbort "Junction::Plurality not supported yet")

/-- Modelled from the spec: the generic sequence framing on the writer side
is a count plus the per-element dynamic-byte fields; at this abstraction the
encoder of a junction list is the ordered list of the inner byte strings.
An abort of any element encoder aborts the whole run. -/
def write_junction_list : List Junction → Except EncodeAbort (List (List Nat))
  | [] => .ok []
  | j :: rest =>
    match junction_write j with
    | .error e => .error e
    | .ok bs =>
      match write_junction_list rest with
      | .error e => .error e
      | .ok bss => .ok (bs :: bss)

/-- Modelled from the spec: the generic sequence framing on the reader side
decodes each element in order; the first element failure is the failure of
the whole run. -/
def read_junction_list : List (List Nat) → Except EvmError (List Junction)
  | [] => .ok []
  | bs :: bss =>
    match junction_from_bytes bs with
    | .error e => .error e
    | .ok j =>
      match read_junction_list bss with
      | .error e => .error e
      | .ok items => .ok (j :: items)

/-- The push loop of Junctions read: appends the decoded items, in order, to
a Junctions value, failing with the length overflow revert of the source when
an append exceeds the capacity. -/
def pushAll (js : Junctions) : List Junction → Except EvmError Junctions
  | [] => .ok js
  | item :: rest =>
    match js.push item with
    | none => .error (.lengthOverflow "overflow when reading junctions")
    | some js2 => pushAll js2 rest

/-- Junctions read: decode the ordered element list, then append each item,
in order, to an initially empty Junctions value. -/
def junctions_read (framed : List (List Nat)) : Except EvmError Junctions :=
  match read_junction_list framed with
  | .error e => .error e
  | .ok items => pushAll .here items

/-- Junctions write: flatten the path into its ordered element list and
encode it through the sequence framing. -/
def junctions_write (value : Junctions) : Except EncodeAbort (List (List Nat)) :=
  write_junction_list value.toList

/-- MultiLocation read, at the tuple-framing abstraction of the spec: the
decoded u8 ancestry count paired with the framed interior. -/
def multi_location_read (p : Nat × List (List Nat)) : Except EvmError MultiLocation :=
  match junctions_read p.2 with
  | .error e => .error e
  | .ok interior => .ok ⟨p.1, interior⟩

/-- MultiLocation write, at the tuple-framing abstraction of the spec. -/
def multi_location_write (value : MultiLocation) : Except EncodeAbort (Nat × List (List Nat)) :=
  match junctions_write value.interior with
  | .error e => .error e
  | .ok framed => .ok (value.parents, framed)

/-- Every element of the list is a byte value. -/
def bytesWF (l : List Nat) : Bool :=
  l.all (fun b => decide (b < 256))

/-- Representable NetworkId values: byte payloads within the Named bound. -/
def NetworkId.wf : NetworkId → Bool
  | .any => true
  | .named name => bytesWF name && decide (name.length ≤ B_NAME)
  | .polkadot => true
  | .kusama => true

/-- Representable Junction values: machine integers in range, fixed byte
arrays of their exact width, bounded variable payloads, and not plurality. -/
def Junction.wf : Junction → Bool
  | .parachain paraId => decide (paraId < 2 ^ 32)
  | .accountId32 network id => network.wf && bytesWF id && decide (id.length = 32)
  | .accountIndex64 network index => network.wf && decide (index < 2 ^ 64)
  | .accountKey20 network key => network.wf && bytesWF key && decide (key.length = 20)
  | .palletInstance inst => decide (inst < 2 ^ 8)
  | .generalIndex idx => decide (idx < 2 ^ 128)
  | .generalKey key => bytesWF key && decide (key.length ≤ B_KEY)
  | .onlyChild => true
  | .plurality => false

/-- Representable Junctions values: every element representable. -/
def Junctions.wf (js : Junctions) : Bool :=
  js.toList.all Junction.wf

/-- Representable MultiLocation values: a u8 ancestry count and a
representable interior. -/
def MultiLocation.wf (m : MultiLocation) : Bool :=
  decide (m.parents < 256) && m.interior.wf

/-- Big-step relation of NetworkId decode: one constructor per branch of
network_id_from_bytes, relating an input buffer to an outcome. -/
inductive NetDecodes : List Nat → Except EvmError NetworkId → Prop where
  | empty : NetDecodes [] (.error (.emptyInput "Junctions cannot be empty"))
  | anyTag (rest : List Nat) : NetDecodes (0 :: rest) (.ok .any)
  | namedOk (name : List Nat) (h : name.length ≤ B_NAME) :
      NetDecodes (1 :: name) (.ok (.named name))
  | namedOverflow (name : List Nat) (h : B_NAME < name.length) :
      NetDecodes (1 :: name) (.error (.lengthOverflow "Named Network Id name too long."))
  | polkadotTag (rest : List Nat) : NetDecodes (2 :: rest) (.ok .polkadot)
  | kusamaTag (rest : List Nat) : NetDecodes (3 :: rest) (.ok .kusama)
  | unknownTag (tag : Nat) (rest : List Nat) (h : 3 < tag) :
      NetDecodes (tag :: rest) (.error (.unknownVariantTag "Non-valid Network Id"))

/-- Big-step relation of Junction decode on the inner byte string: one
constructor per branch of the source match, including the short-read failures
of the generic reader and the propagated NetworkId outcomes. -/
inductive JunctionDecodes : List Nat → Except EvmError Junction → Prop where
  | empty : JunctionDecodes [] (.error (.emptyInput "Junctions cannot be empty"))
  | parachain (rest : List Nat) (h : 4 ≤ rest.length) :
      JunctionDecodes (0 :: rest) (.ok (.parachain (fromBeBytes (rest.take 4))))
  | parachainShort (rest : List Nat) (h : rest.length < 4) :
      JunctionDecodes (0 :: rest) (.error .underlyingReader)
  | accountId32 (rest : List Nat) (nid : NetworkId) (h : 32 ≤ rest.length)
      (hn : NetDecodes (rest.drop 32) (.ok nid)) :
      JunctionDecodes (1 :: rest) (.ok (.accountId32 nid (rest.take 32)))
  | accountId32Err (rest : List Nat) (e : EvmError) (h : 32 ≤ rest.length)
      (hn : NetDecodes (rest.drop 32) (.error e)) :
      JunctionDecodes (1 :: rest) (.error e)
  | accountId32Short (rest : List Nat) (h : rest.length < 32) :
      JunctionDecodes (1 :: rest) (.error .underlyingReader)
  | accountIndex64 (rest : List Nat) (nid : NetworkId) (h : 8 ≤ rest.length)
      (hn : NetDecodes (rest.drop 8) (.ok nid)) :
      JunctionDecodes (2 :: rest) (.ok (.accountIndex64 nid (fromBeBytes (rest.take 8))))
  | accountIndex64Err (rest : List Nat) (e : EvmError) (h : 8 ≤ rest.length)
      (hn : NetDecodes (rest.drop 8) (.error e)) :
      JunctionDecodes (2 :: rest) (.error e)
  | accountIndex64Short (rest : List Nat) (h : rest.length < 8) :
      JunctionDecodes (2 :: rest) (.error .underlyingReader)
  | accountKey20 (rest : List Nat) (nid : NetworkId) (h : 20 ≤ rest.length)
      (hn : NetDecodes (rest.drop 20) (.ok nid)) :
      JunctionDecodes (3 :: rest) (.ok (.accountKey20 nid (rest.take 20)))
  | accountKey20Err (rest : List Nat) (e : EvmError) (h : 20 ≤ rest.length)
      (hn : NetDecodes (rest.drop 20) (.error e)) :
      JunctionDecodes (3 :: rest) (.error e)
  | accountKey20Short (rest : List Nat) (h : rest.length < 20) :
      JunctionDecodes (3 :: rest) (.error .underlyingReader)
  | palletInstance (rest : List Nat) (h : 1 ≤ rest.length) :
      JunctionDecodes (4 :: rest) (.ok (.palletInstance ((rest.take 1).headD 0)))
  | palletInstanceShort (rest : List Nat) (h : rest.length < 1) :
      JunctionDecodes (4 :: rest) (.error .underlyingReader)
  | generalIndex (rest : List Nat) (h : 16 ≤ rest.length) :
      JunctionDecodes (5 :: rest) (.ok (.generalIndex (fromBeBytes (rest.take 16))))
  | generalIndexShort (rest : List Nat) (h : rest.length < 16) :
      JunctionDecodes (5 :: rest) (.error .underlyingReader)
  | generalKeyOk (rest : List Nat) (h : rest.length ≤ B_KEY) :
      JunctionDecodes (6 :: rest) (.ok (.generalKey rest))
  | generalKeyOverflow (rest : List Nat) (h : B_KEY < rest.length) :
      JunctionDecodes (6 :: rest) (.error (.lengthOverflow "Junction GeneralKey too long."))
  | onlyChild (rest : List Nat) : JunctionDecodes (7 :: rest) (.ok .onlyChild)
  | unknownTag (tag : Nat) (rest : List Nat) (h : 7 < tag) :
      JunctionDecodes (tag :: rest) (.error (.unknownVariantTag "No selector for this"))

/-- Big-step relation of the sequence decode loop over framed elements. -/
inductive JunctionListDecodes : List (List Nat) → Except EvmError (List Junction) → Prop where
  | nil : JunctionListDecodes [] (.ok [])
  | consOk (bs : List Nat) (bss : List (List Nat)) (j : Junction) (items : List Junction)
      (h : JunctionDecodes bs (.ok j)) (ht : JunctionListDecodes bss (.ok items)) :
      JunctionListDecodes (bs :: bss) (.ok (j :: items))
  | consHeadErr (bs : List Nat) (bss : List (List Nat)) (e : EvmError)
      (h : JunctionDecodes bs (.error e)) :
      JunctionListDecodes (bs :: bss) (.error e)
  | consTailErr (bs : List Nat) (bss : List (List Nat)) (j : Junction) (e : EvmError)
      (h : JunctionDecodes bs (.ok j)) (ht : JunctionListDecodes bss (.error e)) :
      JunctionListDecodes (bs :: bss) (.error e)

/-- Big-step relation of Junctions decode: decode the element list, then run
the push loop. -/
inductive JunctionsDecodes : List (List Nat) → Except EvmError Junctions → Prop where
  | okItems (bss : List (List Nat)) (items : List Junction)
      (h : JunctionListDecodes bss (.ok items)) :
      JunctionsDecodes bss (pushAll .here items)
  | errItems (bss : List (List Nat)) (e : EvmError)
      (h : JunctionListDecodes bss (.error e)) :
      JunctionsDecodes bss (.error e)

/-- Big-step relation of MultiLocation decode at the tuple abstraction. -/
inductive MultiLocationDecodes :
    Nat × List (List Nat) → Except EvmError MultiLocation → Prop where
  | okLoc (parents : Nat) (bss : List (List Nat)) (js : Junctions)
      (h : JunctionsDecodes bss (.ok js)) :
      MultiLocationDecodes (parents, bss) (.ok ⟨parents, js⟩)
  | errLoc (parents : Nat) (bss : List (List Nat)) (e : EvmError)
      (h : JunctionsDecodes bss (.error e)) :
      MultiLocationDecodes (parents, bss) (.error e)

theorem toBeBytes_length (w n : Nat) : (toBeBytes w n).length = w := by
  induction w generalizing n with
  | zero => rfl
  | succ w ih => simp [toBeBytes, ih]

theorem fromBeBytes_toBeBytes (w n : Nat) :
    fromBeBytes (toBeBytes w n) = n % 256 ^ w := by
  induction w generalizing n with
  | zero => simp [toBeBytes, fromBeBytes, Nat.mod_one]
  | succ w ih =>
    have hstep : fromBeBytes (toBeBytes w (n / 256) ++ [n % 256]) =
        fromBeBytes (toBeBytes w (n / 256)) * 256 + n % 256 := by
      simp [fromBeBytes, List.foldl_append]
    rw [toBeBytes, hstep, ih, Nat.pow_succ, Nat.mul_comm (256 ^ w) 256, Nat.mod_mul]
    omega

theorem fromBeBytes_toBeBytes_of_lt (w n : Nat) (h : n < 256 ^ w) :
    fromBeBytes (toBeBytes w n) = n := by
  rw [fromBeBytes_toBeBytes, Nat.mod_eq_of_lt h]

theorem readRawBytes_exact (l1 l2 : List Nat) (n : Nat) (h : l1.length = n) :
    readRawBytes n (l1 ++ l2) = .ok (l1, l2) := by
  subst h
  simp [readRawBytes, List.take_left, List.drop_left]

theorem readRawBytes_all (l : List Nat) (n : Nat) (h : l.length = n) :
    readRawBytes n l = .ok (l, []) := by
  have := readRawBytes_exact l [] n h
  simpa using this

theorem net_roundtrip (nid : NetworkId) (h : nid.wf = true) :
    network_id_from_bytes (network_id_to_bytes nid) = .ok nid := by
  cases nid with
  | any => rfl
  | named name =>
    have hlen : name.length ≤ B_NAME := by
      simp [NetworkId.wf] at h
      exact h.2
    simp [network_id_to_bytes, network_id_from_bytes, hlen]
  | polkadot => rfl
  | kusama => rfl

theorem junction_roundtrip (j : Junction) (h : j.wf = true) :
    ∃ bs, junction_write j = .ok bs ∧ junction_from_bytes bs = .ok j := by
  cases j with
  | parachain paraId =>
    refine ⟨_, rfl, ?_⟩
    have hlt : paraId < 256 ^ 4 := by
      simp [Junction.wf] at h
      omega
    simp [junction_from_bytes, readRawBytes_all _ _ (toBeBytes_length 4 paraId),
      fromBeBytes_toBeBytes_of_lt 4 paraId hlt]
  | accountId32 network id =>
    refine ⟨_, rfl, ?_⟩
    simp [Junction.wf] at h
    obtain ⟨⟨hnet, _⟩, hlen⟩ := h
    simp [junction_from_bytes, readRawBytes_exact id _ 32 hlen,
      net_roundtrip network hnet]
  | accountIndex64 network index =>
    refine ⟨_, rfl, ?_⟩
    simp [Junction.wf] at h
    have hlt : index < 256 ^ 8 := by omega
    simp [junction_from_bytes, readRawBytes_exact _ _ 8 (toBeBytes_length 8 index),
      net_roundtrip network h.1, fromBeBytes_toBeBytes_of_lt 8 index hlt]
  | accountKey20 network key =>
    refine ⟨_, rfl, ?_⟩
    simp [Junction.wf] at h
    obtain ⟨⟨hnet, _⟩, hlen⟩ := h
    simp [junction_from_bytes, readRawBytes_exact key _ 20 hlen,
      net_roundtrip network hnet]
  | palletInstance inst =>
    refine ⟨_, rfl, ?_⟩
    simp [Junction.wf] at h
    simp [junction_from_bytes, readRawBytes, toBeBytes, Nat.mod_eq_of_lt h]
  | generalIndex idx =>
    refine ⟨_, rfl, ?_⟩
    have hlt : idx < 256 ^ 16 := by
      simp [Junction.wf] at h
      omega
    simp [junction_from_bytes, readRawBytes_all _ _ (toBeBytes_length 16 idx),
      fromBeBytes_toBeBytes_of_lt 16 idx hlt]
  | generalKey key =>
    refine ⟨_, rfl, ?_⟩
    simp [Junction.wf] at h
    simp [junction_from_bytes, h.2]
  | onlyChild => exact ⟨_, rfl, rfl⟩
  | plurality => simp [Junction.wf] at h

theorem toList_length_le (js : Junctions) : js.toList.length ≤ 8 := by
  cases js <;> simp [Junctions.toList]

theorem push_some (js : Junctions) (j : Junction) (h : js.toList.length < 8) :
    ∃ js2, js.push j = some js2 ∧ js2.toList = js.toList ++ [j] := by
  cases js <;> first
    | exact ⟨_, rfl, rfl⟩
    | simp [Junctions.toList] at h

theorem push_none (js : Junctions) (j : Junction) (h : js.toList.length = 8) :
    js.push j = none := by
  cases js <;> first
    | rfl
    | simp [Junctions.toList] at h

theorem pushAll_ok (l : List Junction) :
    ∀ js : Junctions, js.toList.length + l.length ≤ 8 →
      ∃ js2, pushAll js l = .ok js2 ∧ js2.toList = js.toList ++ l := by
  induction l with
  | nil => exact fun js _ => ⟨js, rfl, by simp⟩
  | cons j t ih =>
    intro js h
    have hlt : js.toList.length < 8 := by
      simp at h
      omega
    obtain ⟨js2, hp, htl⟩ := push_some js j hlt
    have h2 : js2.toList.length + t.length ≤ 8 := by
      simp [htl]
      simp at h
      omega
    obtain ⟨js3, hp3, htl3⟩ := ih js2 h2
    exact ⟨js3, by simp [pushAll, hp, hp3], by simp [htl3, htl]⟩

theorem pushAll_overflow (l : List Junction) :
    ∀ js : Junctions, 8 < js.toList.length + l.length →
      pushAll js l = .error (.lengthOverflow "overflow when reading junctions") := by
  induction l with
  | nil =>
    intro js h
    have := toList_length_le js
    simp at h
    omega
  | cons j t ih =>
    intro js h
    by_cases hfull : js.toList.length = 8
    · simp [pushAll, push_none js j hfull]
    · have hlt : js.toList.length < 8 :=
        Nat.lt_of_le_of_ne (toList_length_le js) hfull
      obtain ⟨js2, hp, htl⟩ := push_some js j hlt
      have h2 : 8 < js2.toList.length + t.length := by
        simp [htl]
        simp at h
        omega
      simp [pushAll, hp, ih js2 h2]

theorem pushAll_here_toList (js : Junctions) : pushAll .here js.toList = .ok js := by
  cases js <;> rfl

theorem netDecodes_eq (bs : List Nat) (r : Except EvmError NetworkId)
    (h : NetDecodes bs r) : r = network_id_from_bytes bs := by
  cases h with
  | empty => rfl
  | anyTag rest => rfl
  | namedOk name hle => simp [network_id_from_bytes, hle]
  | namedOverflow name hgt => simp [network_id_from_bytes, Nat.not_le.mpr hgt]
  | polkadotTag rest => rfl
  | kusamaTag rest => rfl
  | unknownTag tag rest hgt =>
    have h0 : ¬ tag = 0 := by omega
    have h1 : ¬ tag = 1 := by omega
    have h2 : ¬ tag = 2 := by omega
    have h3 : ¬ tag = 3 := by omega
    simp [network_id_from_bytes, h0, h1, h2, h3]

theorem netDecodes_total (bs : List Nat) : NetDecodes bs (network_id_from_bytes bs) := by
  match bs with
  | [] => exact .empty
  | tag :: rest =>
    rcases Nat.lt_or_ge tag 4 with h4 | h4
    · interval_cases tag
      · exact .anyTag rest
      · by_cases hlen : rest.length ≤ B_NAME
        · rw [show network_id_from_bytes (1 :: rest) = .ok (.named rest) by
            simp [network_id_from_bytes, hlen]]
          exact .namedOk rest hlen
        · rw [show network_id_from_bytes (1 :: rest) =
              .error (.lengthOverflow "Named Network Id name too long.") by
            simp [network_id_from_bytes, hlen]]
          exact .namedOverflow rest (by omega)
      · exact .polkadotTag rest
      · exact .kusamaTag rest
    · rw [show network_id_from_bytes (tag :: rest) =
          .error (.unknownVariantTag "Non-valid Network Id") by
        have h0 : ¬ tag = 0 := by omega
        have h1 : ¬ tag = 1 := by omega
        have h2 : ¬ tag = 2 := by omega
        have h3 : ¬ tag = 3 := by omega
        simp [network_id_from_bytes, h0, h1, h2, h3]]
      exact .unknownTag tag rest (by omega)

theorem junctionDecodes_eq (bs : List Nat) (r : Except EvmError Junction)
    (h : JunctionDecodes bs r) : r = junction_from_bytes bs := by
  cases h with
  | empty => rfl
  | parachain rest h => simp [junction_from_bytes, readRawBytes, h]
  | parachainShort rest h =>
    simp [junction_from_bytes, readRawBytes, Nat.not_le.mpr h]
  | accountId32 rest nid h hn =>
    simp [junction_from_bytes, readRawBytes, h, (netDecodes_eq _ _ hn).symm]
  | accountId32Err rest e h hn =>
    simp [junction_from_bytes, readRawBytes, h, (netDecodes_eq _ _ hn).symm]
  | accountId32Short rest h =>
    simp [junction_from_bytes, readRawBytes, Nat.not_le.mpr h]
  | accountIndex64 rest nid h hn =>
    simp [junction_from_bytes, readRawBytes, h, (netDecodes_eq _ _ hn).symm]
  | accountIndex64Err rest e h hn =>
    simp [junction_from_bytes, readRawBytes, h, (netDecodes_eq _ _ hn).symm]
  | accountIndex64Short rest h =>
    simp [junction_from_bytes, readRawBytes, Nat.not_le.mpr h]
  | accountKey20 rest nid h hn =>
    simp [junction_from_bytes, readRawBytes, h, (netDecodes_eq _ _ hn).symm]
  | accountKey20Err rest e h hn =>
    simp [junction_from_bytes, readRawBytes, h, (netDecodes_eq _ _ hn).symm]
  | accountKey20Short rest h =>
    simp [junction_from_bytes, readRawBytes, Nat.not_le.mpr h]
  | palletInstance rest h => simp [junction_from_bytes, readRawBytes, h]
  | palletInstanceShort rest h =>
    simp [junction_from_bytes, readRawBytes, Nat.not_le.mpr h]
  | generalIndex rest h => simp [junction_from_bytes, readRawBytes, h]
  | generalIndexShort rest h =>
    simp [junction_from_bytes, readRawBytes, Nat.not_le.mpr h]
  | generalKeyOk rest h => simp [junction_from_bytes, h]
  | generalKeyOverflow rest h => simp [junction_from_bytes, Nat.not_le.mpr h]
  | onlyChild rest => rfl
  | unknownTag tag rest hgt =>
    have h0 : ¬ tag = 0 := by omega
    have h1 : ¬ tag = 1 := by omega
    have h2 : ¬ tag = 2 := by omega
    have h3 : ¬ tag = 3 := by omega
    have h4 : ¬ tag = 4 := by omega
    have h5 : ¬ tag = 5 := by omega
    have h6 : ¬ tag = 6 := by omega
    have h7 : ¬ tag = 7 := by omega
    simp [junction_from_bytes, h0, h1, h2, h3, h4, h5, h6, h7]

theorem junctionDecodes_total (bs : List Nat) :
    JunctionDecodes bs (junction_from_bytes bs) := by
  match bs with
  | [] => exact .empty
  | tag :: rest =>
    rcases Nat.lt_or_ge tag 8 with h8 | h8
    · interval_cases tag
      · by_cases h : 4 ≤ rest.length
        · rw [(junctionDecodes_eq _ _ (.parachain rest h)).symm]
          exact .parachain rest h
        · rw [(junctionDecodes_eq _ _ (.parachainShort rest (by omega))).symm]
          exact .parachainShort rest (by omega)
      · by_cases h : 32 ≤ rest.length
        · cases hres : network_id_from_bytes (rest.drop 32) with
          | ok nid =>
            have hn : NetDecodes (rest.drop 32) (.ok nid) := by
              have := netDecodes_total (rest.drop 32)
              rwa [hres] at this
            rw [(junctionDecodes_eq _ _ (.accountId32 rest nid h hn)).symm]
            exact .accountId32 rest nid h hn
          | error e =>
            have hn : NetDecodes (rest.drop 32) (.error e) := by
              have := netDecodes_total (rest.drop 32)
              rwa [hres] at this
            rw [(junctionDecodes_eq _ _ (.accountId32Err rest e h hn)).symm]
            exact .accountId32Err rest e h hn
        · rw [(junctionDecodes_eq _ _ (.accountId32Short rest (by omega))).symm]
          exact .accountId32Short rest (by omega)
      · by_cases h : 8 ≤ rest.length
        · cases hres : network_id_from_bytes (rest.drop 8) with
          | ok nid =>
            have hn : NetDecodes (rest.drop 8) (.ok nid) := by
              have := netDecodes_total (rest.drop 8)
              rwa [hres] at this
            rw [(junctionDecodes_eq _ _ (.accountIndex64 rest nid h hn)).symm]
            exact .accountIndex64 rest nid h hn
          | error e =>
            have hn : NetDecodes (rest.drop 8) (.error e) := by
              have := netDecodes_total (rest.drop 8)
              rwa [hres] at this
            rw [(junctionDecodes_eq _ _ (.accountIndex64Err rest e h hn)).symm]
            exact .accountIndex64Err rest e h hn
        · rw [(junctionDecodes_eq _ _ (.accountIndex64Short rest (by omega))).symm]
          exact .accountIndex64Short rest (by omega)
      · by_cases h : 20 ≤ rest.length
        · cases hres : network_id_from_bytes (rest.drop 20) with
          | ok nid =>
            have hn : NetDecodes (rest.drop 20) (.ok nid) := by
              have := netDecodes_total (rest.drop 20)
              rwa [hres] at this
            rw [(junctionDecodes_eq _ _ (.accountKey20 rest nid h hn)).symm]
            exact .accountKey20 rest nid h hn
          | error e =>
            have hn : NetDecodes (rest.drop 20) (.error e) := by
              have := netDecodes_total (rest.drop 20)
              rwa [hres] at this
            rw [(junctionDecodes_eq _ _ (.accountKey20Err rest e h hn)).symm]
            exact .accountKey20Err rest e h hn
        · rw [(junctionDecodes_eq _ _ (.accountKey20Short rest (by omega))).symm]
          exact .accountKey20Short rest (by omega)
      · by_cases h : 1 ≤ rest.length
        · rw [(junctionDecodes_eq _ _ (.palletInstance rest h)).symm]
          exact .palletInstance rest h
        · rw [(junctionDecodes_eq _ _ (.palletInstanceShort rest (by omega))).symm]
          exact .palletInstanceShort rest (by omega)
      · by_cases h : 16 ≤ rest.length
        · rw [(junctionDecodes_eq _ _ (.generalIndex rest h)).symm]
          exact .generalIndex rest h
        · rw [(junctionDecodes_eq _ _ (.generalIndexShort rest (by omega))).symm]
          exact .generalIndexShort rest (by omega)
      · by_cases h : rest.length ≤ B_KEY
        · rw [(junctionDecodes_eq _ _ (.generalKeyOk rest h)).symm]
          exact .generalKeyOk rest h
        · rw [(junctionDecodes_eq _ _ (.generalKeyOverflow rest (by omega))).symm]
          exact .generalKeyOverflow rest (by omega)
      · exact .onlyChild rest
    · rw [(junctionDecodes_eq _ _ (.unknownTag tag rest (by omega))).symm]
      exact .unknownTag tag rest (by omega)

theorem junctionListDecodes_eq (bss : List (List Nat))
    (r : Except EvmError (List Junction)) (h : JunctionListDecodes bss r) :
    r = read_junction_list bss := by
  induction h with
  | nil => rfl
  | consOk bs bss j items h _ ih =>
    simp [read_junction_list, (junctionDecodes_eq _ _ h).symm, ih.symm]
  | consHeadErr bs bss e h =>
    simp [read_junction_list, (junctionDecodes_eq _ _ h).symm]
  | consTailErr bs bss j e h _ ih =>
    simp [read_junction_list, (junctionDecodes_eq _ _ h).symm, ih.symm]

theorem junctionListDecodes_total (bss : List (List Nat)) :
    JunctionListDecodes bss (read_junction_list bss) := by
  induction bss with
  | nil => exact .nil
  | cons bs bss ih =>
    cases hbs : junction_from_bytes bs with
    | ok j =>
      have hh : JunctionDecodes bs (.ok j) := by
        have := junctionDecodes_total bs
        rwa [hbs] at this
      cases hrest : read_junction_list bss with
      | ok items =>
        rw [show read_junction_list (bs :: bss) = .ok (j :: items) by
          simp [read_junction_list, hbs, hrest]]
        exact .consOk bs bss j items hh (hrest ▸ ih)
      | error e =>
        rw [show read_junction_list (bs :: bss) = .error e by
          simp [read_junction_list, hbs, hrest]]
        exact .consTailErr bs bss j e hh (hrest ▸ ih)
    | error e =>
      rw [show read_junction_list (bs :: bss) = .error e by
        simp [read_junction_list, hbs]]
      exact .consHeadErr bs bss e (hbs ▸ junctionDecodes_total bs)

theorem junctionsDecodes_eq (bss : List (List Nat)) (r : Except EvmError Junctions)
    (h : JunctionsDecodes bss r) : r = junctions_read bss := by
  cases h with
  | okItems items h =>
    simp [junctions_read, (junctionListDecodes_eq _ _ h).symm]
  | errItems e h =>
    simp [junctions_read, (junctionListDecodes_eq _ _ h).symm]

theorem junctionsDecodes_total (bss : List (List Nat)) :
    JunctionsDecodes bss (junctions_read bss) := by
  cases hres : read_junction_list bss with
  | ok items =>
    rw [show junctions_read bss = pushAll .here items by simp [junctions_read, hres]]
    exact .okItems bss items (hres ▸ junctionListDecodes_total bss)
  | error e =>
    rw [show junctions_read bss = .error e by simp [junctions_read, hres]]
    exact .errItems bss e (hres ▸ junctionListDecodes_total bss)

theorem multiLocationDecodes_eq (p : Nat × List (List Nat))
    (r : Except EvmError MultiLocation) (h : MultiLocationDecodes p r) :
    r = multi_location_read p := by
  cases h with
  | okLoc parents bss js h =>
    simp [multi_location_read, (junctionsDecodes_eq _ _ h).symm]
  | errLoc parents bss e h =>
    simp [multi_location_read, (junctionsDecodes_eq _ _ h).symm]

theorem multiLocationDecodes_total (p : Nat × List (List Nat)) :
    MultiLocationDecodes p (multi_location_read p) := by
  obtain ⟨parents, bss⟩ := p
  cases hres : junctions_read bss with
  | ok js =>
    rw [show multi_location_read (parents, bss) = .ok ⟨parents, js⟩ by
      simp [multi_location_read, hres]]
    exact .okLoc parents bss js (hres ▸ junctionsDecodes_total bss)
  | error e =>
    rw [show multi_location_read (parents, bss) = .error e by
      simp [multi_location_read, hres]]
    exact .errLoc parents bss e (hres ▸ junctionsDecodes_total bss)

theorem junction_list_roundtrip (l : List Junction) (h : ∀ j ∈ l, j.wf = true) :
    ∃ bss, write_junction_list l = .ok bss ∧ read_junction_list bss = .ok l := by
  induction l with
  | nil => exact ⟨[], rfl, rfl⟩
  | cons j t ih =>
    obtain ⟨bs, hw, hr⟩ := junction_roundtrip j (h j (by simp))
    obtain ⟨bss, hws, hrs⟩ := ih (fun x hx => h x (by simp [hx]))
    exact ⟨bs :: bss, by simp [write_junction_list, hw, hws],
      by simp [read_junction_list, hr, hrs]⟩

theorem junctions_roundtrip (js : Junctions) (h : js.wf = true) :
    ∃ framed, junctions_write js = .ok framed ∧ junctions_read framed = .ok js := by
  have hall : ∀ j ∈ js.toList, j.wf = true := by
    simpa [Junctions.wf, List.all_eq_true] using h
  obtain ⟨bss, hw, hr⟩ := junction_list_roundtrip js.toList hall
  exact ⟨bss, hw, by simp [junctions_read, hr, pushAll_here_toList]⟩

theorem multi_location_roundtrip (m : MultiLocation) (h : m.wf = true) :
    ∃ enc, multi_location_write m = .ok enc ∧ multi_location_read enc = .ok m := by
  have hint : m.interior.wf = true := by
    simp [MultiLocation.wf] at h
    exact h.2
  obtain ⟨framed, hw, hr⟩ := junctions_roundtrip m.interior hint
  exact ⟨(m.parents, framed), by simp [multi_location_write, hw],
    by simp [multi_location_read, hr]⟩

/-- Claim C1: decoding the bytes produced by encoding yields the original
value, for every representable NetworkId, every non-Plurality Junction
variant, every Junctions of length 0..D, and every MultiLocation built from
them. -/
theorem claim_C1_roundtrip :
    (∀ nid : NetworkId, nid.wf = true →
        network_id_from_bytes (network_id_to_bytes nid) = .ok nid) ∧
    (∀ j : Junction, j.wf = true →
        ∃ bs, junction_write j = .ok bs ∧ junction_from_bytes bs = .ok j) ∧
    (∀ js : Junctions, js.wf = true →
        ∃ framed, junctions_write js = .ok framed ∧ junctions_read framed = .ok js) ∧
    (∀ m : MultiLocation, m.wf = true →
        ∃ enc, multi_location_write m = .ok enc ∧ multi_location_read enc = .ok m) :=
  ⟨net_roundtrip, junction_roundtrip, junctions_roundtrip, multi_location_roundtrip⟩

/-- Witness for C1 at concrete representable values of all four types. -/
theorem claim_C1_witness :
    network_id_from_bytes (network_id_to_bytes (.named [7])) = .ok (.named [7]) ∧
    (∃ bs, junction_write (.accountId32 .polkadot (List.replicate 32 0)) = .ok bs ∧
      junction_from_bytes bs = .ok (.accountId32 .polkadot (List.replicate 32 0))) ∧
    (∃ framed, junctions_write (.x2 (.parachain 1000) .onlyChild) = .ok framed ∧
      junctions_read framed = .ok (.x2 (.parachain 1000) .onlyChild)) ∧
    (∃ enc, multi_location_write ⟨255, .x1 (.generalKey [1, 2])⟩ = .ok enc ∧
      multi_location_read enc = .ok ⟨255, .x1 (.generalKey [1, 2])⟩) :=
  ⟨claim_C1_roundtrip.1 _ (by decide), claim_C1_roundtrip.2.1 _ (by decide),
   claim_C1_roundtrip.2.2.1 _ (by decide), claim_C1_roundtrip.2.2.2 _ (by decide)⟩

/-- Claim C2, settled as a code bug: the source encoder does not return a
typed UnsupportedVariant failure on the Plurality variant; it executes an
unconditional unreachable abort, modelled here as the unreachableAbort
outcome.  This theorem evaluates the encoder at the failing input. -/
theorem claim_C2_plurality_aborts :
    junction_write .plurality =
      .error (.unreachableAbort "Junction::Plurality not supported yet") := rfl

/-- Claim C3: decoding a NetworkId from an empty buffer and decoding a
Junction whose inner dynamic-byte field is empty both fail with the
EmptyInput failure, producing no value. -/
theorem claim_C3_empty_input :
    network_id_from_bytes [] = .error (.emptyInput "Junctions cannot be empty") ∧
    junction_from_bytes [] = .error (.emptyInput "Junctions cannot be empty") :=
  ⟨rfl, rfl⟩

/-- Claim C4: a NetworkId tag byte outside 0..3 fails with UnknownVariantTag,
and a Junction tag byte outside 0..7 (tag 8, Plurality, included) fails with
UnknownVariantTag, whatever the remaining bytes are. -/
theorem claim_C4_unknown_tag :
    (∀ (tag : Nat) (rest : List Nat), tag < 256 → 3 < tag →
        network_id_from_bytes (tag :: rest) =
          .error (.unknownVariantTag "Non-valid Network Id")) ∧
    (∀ (tag : Nat) (rest : List Nat), tag < 256 → 7 < tag →
        junction_from_bytes (tag :: rest) =
          .error (.unknownVariantTag "No selector for this")) := by
  constructor
  · intro tag rest _ hgt
    have h0 : ¬ tag = 0 := by omega
    have h1 : ¬ tag = 1 := by omega
    have h2 : ¬ tag = 2 := by omega
    have h3 : ¬ tag = 3 := by omega
    simp [network_id_from_bytes, h0, h1, h2, h3]
  · intro tag rest _ hgt
    have h0 : ¬ tag = 0 := by omega
    have h1 : ¬ tag = 1 := by omega
    have h2 : ¬ tag = 2 := by omega
    have h3 : ¬ tag = 3 := by omega
    have h4 : ¬ tag = 4 := by omega
    have h5 : ¬ tag = 5 := by omega
    have h6 : ¬ tag = 6 := by omega
    have h7 : ¬ tag = 7 := by omega
    simp [junction_from_bytes, h0, h1, h2, h3, h4, h5, h6, h7]

/-- Witness for C4 at tag 9 for NetworkId and tag 8 (Plurality) for
Junction. -/
theorem claim_C4_witness :
    network_id_from_bytes [9] = .error (.unknownVariantTag "Non-valid Network Id") ∧
    junction_from_bytes [8, 0] = .error (.unknownVariantTag "No selector for this") :=
  ⟨claim_C4_unknown_tag.1 9 [] (by decide) (by decide),
   claim_C4_unknown_tag.2 8 [0] (by decide) (by decide)⟩

/-- Claim C5: NetworkId tag 1 consumes every remaining byte as the name; a
name of length exactly B_NAME decodes successfully and a name of length
B_NAME + 1 fails with LengthOverflow. -/
theorem claim_C5_named_bound :
    (∀ name : List Nat, name.length = B_NAME →
        network_id_from_bytes (1 :: name) = .ok (.named name)) ∧
    (∀ name : List Nat, name.length = B_NAME + 1 →
        network_id_from_bytes (1 :: name) =
          .error (.lengthOverflow "Named Network Id name too long.")) := by
  constructor
  · intro name h
    simp [network_id_from_bytes, h]
  · intro name h
    simp [network_id_from_bytes, h, B_NAME]

/-- Witness for C5 at a 32-byte and a 33-byte name. -/
theorem claim_C5_witness :
    network_id_from_bytes (1 :: List.replicate 32 9) = .ok (.named (List.replicate 32 9)) ∧
    network_id_from_bytes (1 :: List.replicate 33 9) =
      .error (.lengthOverflow "Named Network Id name too long.") :=
  ⟨claim_C5_named_bound.1 _ (by decide), claim_C5_named_bound.2 _ (by decide)⟩

/-- Claim C6: Junctions decode appends each decoded element, in input order,
to an initially empty value, preserving order exactly; exactly D elements
decode successfully and D + 1 elements fail with LengthOverflow. -/
theorem claim_C6_junctions_order_bound :
    ∀ (framed : List (List Nat)) (items : List Junction),
      read_junction_list framed = .ok items →
      ((items.length ≤ MAX_DEPTH →
          ∃ js, junctions_read framed = .ok js ∧ js.toList = items) ∧
       (items.length = MAX_DEPTH + 1 →
          junctions_read framed =
            .error (.lengthOverflow "overflow when reading junctions"))) := by
  intro framed items hread
  constructor
  · intro hlen
    obtain ⟨js, hp, htl⟩ := pushAll_ok items .here
      (by simpa [Junctions.toList, MAX_DEPTH] using hlen)
    exact ⟨js, by simp [junctions_read, hread, hp], by simpa using htl⟩
  · intro hlen
    have hov := pushAll_overflow items .here
      (by simp [Junctions.toList, hlen, MAX_DEPTH])
    simp [junctions_read, hread, hov]

/-- Witness for C6: a 2-element sequence decodes in order, and a 9-element
sequence overflows. -/
theorem claim_C6_witness :
    (∃ js, junctions_read [[7], [0, 0, 0, 3, 232]] = .ok js ∧
        js.toList = [.onlyChild, .parachain 1000]) ∧
    junctions_read (List.replicate 9 [7]) =
      .error (.lengthOverflow "overflow when reading junctions") :=
  ⟨(claim_C6_junctions_order_bound [[7], [0, 0, 0, 3, 232]]
      [.onlyChild, .parachain 1000] (by decide)).1 (by decide),
   (claim_C6_junctions_order_bound (List.replicate 9 [7])
      (List.replicate 9 .onlyChild) (by decide)).2 (by decide)⟩

/-- Claim C7: encoding AccountId32 with network Polkadot and a 32-zero-byte
id yields the inner bytes tag 1, then 32 zero bytes, then the Polkadot
network tag 2; decoding those bytes reproduces the value. -/
theorem claim_C7_literal :
    junction_write (.accountId32 .polkadot (List.replicate 32 0)) =
      .ok (1 :: (List.replicate 32 0 ++ [2])) ∧
    junction_from_bytes (1 :: (List.replicate 32 0 ++ [2])) =
      .ok (.accountId32 .polkadot (List.replicate 32 0)) := by
  decide

/-- Claim C8: NetworkId encode emits exactly one tag byte per variant, 0 for
Any, 1 for Named, 2 for Polkadot and 3 for Kusama, followed by further bytes
only for Named, and those are exactly the raw unframed name bytes. -/
theorem claim_C8_network_encode_layout :
    network_id_to_bytes .any = [0] ∧
    (∀ name : List Nat, network_id_to_bytes (.named name) = 1 :: name) ∧
    network_id_to_bytes .polkadot = [2] ∧
    network_id_to_bytes .kusama = [3] :=
  ⟨rfl, fun _ => rfl, rfl, rfl⟩

/-- Witness for C8 at a concrete Named payload. -/
theorem claim_C8_witness : network_id_to_bytes (.named [5, 6]) = [1, 5, 6] :=
  claim_C8_network_encode_layout.2.1 [5, 6]

/-- Claim C9: each decoder relates every input to exactly one outcome, and
that outcome is the one the decode function computes, so repeated decoding
of the same input, valid or invalid, produces the identical result and an
invalid input yields only its error, never a partial value. -/
theorem claim_C9_decode_deterministic :
    (∀ bs r1 r2, NetDecodes bs r1 → NetDecodes bs r2 → r1 = r2) ∧
    (∀ bs, NetDecodes bs (network_id_from_bytes bs)) ∧
    (∀ bs r1 r2, JunctionDecodes bs r1 → JunctionDecodes bs r2 → r1 = r2) ∧
    (∀ bs, JunctionDecodes bs (junction_from_bytes bs)) ∧
    (∀ bss r1 r2, JunctionsDecodes bss r1 → JunctionsDecodes bss r2 → r1 = r2) ∧
    (∀ bss, JunctionsDecodes bss (junctions_read bss)) ∧
    (∀ p r1 r2, MultiLocationDecodes p r1 → MultiLocationDecodes p r2 → r1 = r2) ∧
    (∀ p, MultiLocationDecodes p (multi_location_read p)) :=
  ⟨fun bs r1 r2 h1 h2 => (netDecodes_eq bs r1 h1).trans (netDecodes_eq bs r2 h2).symm,
   netDecodes_total,
   fun bs r1 r2 h1 h2 =>
     (junctionDecodes_eq bs r1 h1).trans (junctionDecodes_eq bs r2 h2).symm,
   junctionDecodes_total,
   fun bss r1 r2 h1 h2 =>
     (junctionsDecodes_eq bss r1 h1).trans (junctionsDecodes_eq bss r2 h2).symm,
   junctionsDecodes_total,
   fun p r1 r2 h1 h2 =>
     (multiLocationDecodes_eq p r1 h1).trans (multiLocationDecodes_eq p r2 h2).symm,
   multiLocationDecodes_total⟩

/-- Witness for C9: two independently built decode derivations for the same
invalid input are forced to the identical error outcome. -/
theorem claim_C9_witness :
    (Except.error (EvmError.unknownVariantTag "Non-valid Network Id") :
        Except EvmError NetworkId) =
      Except.error (EvmError.unknownVariantTag "Non-valid Network Id") :=
  claim_C9_decode_deterministic.1 [9] _ _ (NetDecodes.unknownTag 9 [] (by omega))
    (NetDecodes.unknownTag 9 [] (by omega))

/-- Claim C10: for Junction tags 0, 4, 5 and 7 the decoder consumes only the
tag byte and the fixed fields, succeeding whatever trailing bytes follow, so
two distinct inner byte strings can decode to the same value. -/
theorem claim_C10_trailing_ignored :
    (∀ rest : List Nat, 4 ≤ rest.length →
        junction_from_bytes (0 :: rest) = .ok (.parachain (fromBeBytes (rest.take 4)))) ∧
    (∀ rest : List Nat, 1 ≤ rest.length →
        junction_from_bytes (4 :: rest) = .ok (.palletInstance ((rest.take 1).headD 0))) ∧
    (∀ rest : List Nat, 16 ≤ rest.length →
        junction_from_bytes (5 :: rest) = .ok (.generalIndex (fromBeBytes (rest.take 16)))) ∧
    (∀ rest : List Nat, junction_from_bytes (7 :: rest) = .ok .onlyChild) ∧
    (junction_from_bytes [7] = junction_from_bytes [7, 0] ∧
      junction_from_bytes [7] = .ok .onlyChild ∧ ([7] : List Nat) ≠ [7, 0]) := by
  refine ⟨?_, ?_, ?_, ?_, rfl, rfl, by decide⟩
  · intro rest h
    simp [junction_from_bytes, readRawBytes, h]
  · intro rest h
    simp [junction_from_bytes, readRawBytes, h]
  · intro rest h
    simp [junction_from_bytes, readRawBytes, h]
  · intro rest
    rfl

/-- Witness for C10 at inner buffers carrying extra trailing bytes. -/
theorem claim_C10_witness :
    junction_from_bytes [0, 0, 0, 3, 232, 99] = .ok (.parachain 1000) ∧
    junction_from_bytes [4, 5, 6] = .ok (.palletInstance 5) ∧
    junction_from_bytes (5 :: (List.replicate 16 0 ++ [1])) = .ok (.generalIndex 0) ∧
    junction_from_bytes [7, 1, 2, 3] = .ok .onlyChild :=
  ⟨(claim_C10_trailing_ignored.1 [0, 0, 3, 232, 99] (by decide)).trans (by decide),
   (claim_C10_trailing_ignored.2.1 [5, 6] (by decide)).trans (by decide),
   (claim_C10_trailing_ignored.2.2.1 (List.replicate 16 0 ++ [1]) (by decide)).trans
     (by decide),
   claim_C10_trailing_ignored.2.2.2.1 [1, 2, 3]⟩

end Xcm
